import Mathlib

set_option maxRecDepth 10000

/-!
Shallow embedding of the news-scraping core of the Nintendo news Discord bot
(src/index.js and src/unnamed/part_000; the two files contain the same
scraping logic).  JavaScript strings are modelled as Lean `String`s; an
attribute that cheerio reports as `undefined` is modelled as the empty
string, which is sound for this code because every use of such a value is
through JavaScript truthiness, where `undefined` and `""` behave alike.
JavaScript string helpers (`includes`, `startsWith`, `replace` with a string
pattern, `substring`, `trim`, `toLowerCase`, `indexOf`) are embedded as
total functions on the character list of the string.
-/

namespace NNews

/-- Origin used to resolve relative links (src/index.js line 101, 170, 215). -/
def origin : String := "https://www.nintendo.com"

/-- NINTENDO_NEWS_URL (src/index.js line 17). -/
def newsUrl : String := "https://www.nintendo.com/us/whatsnew/"

/-- JavaScript `a || b` on strings: both `undefined` and `""` are falsy. -/
def jsOrStr (a b : String) : String := if a = "" then b else a

/-- Does the second list occur at the head of the first one? -/
def leadMatch : List Char → List Char → Bool
  | _, [] => true
  | [], _ :: _ => false
  | a :: as, b :: bs => a == b && leadMatch as bs

/-- Does the second list occur anywhere inside the first one? -/
def hasSub : List Char → List Char → Bool
  | [], sub => sub.isEmpty
  | c :: t, sub => leadMatch (c :: t) sub || hasSub t sub

/-- JavaScript `s.includes(sub)`. -/
def jsIncludes (s sub : String) : Bool := hasSub s.toList sub.toList

/-- JavaScript `s.startsWith(p)`. -/
def jsStartsWith (s p : String) : Bool := leadMatch s.toList p.toList

/-- Replace the first occurrence of `pat` by `rep` (JavaScript
`s.replace(pat, rep)` with a string pattern replaces only the first one). -/
def replaceFirstAux (pat rep : List Char) : List Char → List Char
  | [] => if pat.isEmpty then rep else []
  | c :: t =>
    if leadMatch (c :: t) pat then rep ++ (c :: t).drop pat.length
    else c :: replaceFirstAux pat rep t

/-- JavaScript `s.replace(pat, rep)` for a string pattern. -/
def jsReplaceFirst (s pat rep : String) : String :=
  String.mk (replaceFirstAux pat.toList rep.toList s.toList)

/-- Drop leading whitespace characters. -/
def dropLeadingWs : List Char → List Char
  | [] => []
  | c :: t => if c.isWhitespace then dropLeadingWs t else c :: t

/-- JavaScript `s.trim()` (restricted to the ASCII whitespace the inputs of
this program contain). -/
def jsTrim (s : String) : String :=
  String.mk (((dropLeadingWs s.toList).reverse |> dropLeadingWs).reverse)

/-- JavaScript `s.toLowerCase()` (ASCII). -/
def jsToLower (s : String) : String := String.mk (s.toList.map Char.toLower)

/-- JavaScript `s.substring(0, n)`. -/
def jsSubstringTo (s : String) (n : Nat) : String := String.mk (s.toList.take n)

/-- JavaScript `s.substring(n)`. -/
def jsSubstringFrom (s : String) (n : Nat) : String := String.mk (s.toList.drop n)

/-- JavaScript `s.indexOf(".")`: index of the first period, or -1. -/
def jsIndexOfDot (s : String) : Int :=
  ((s.toList.findIdx? (fun c => c == '.')).map (fun i => (i : Int))).getD (-1)

/-- A news item as pushed by fetchNintendoNews (src/index.js lines 174-180
and 239-245). -/
structure NewsItem where
  title : String
  link : String
  date : String
  imageUrl : String
  description : String
deriving DecidableEq, Repr

/-- The fixed candidate list `potentialSelectors` (src/index.js lines 61-73). -/
def potentialSelectors : List String :=
  [".WhatIsNewPage-module__item",
   ".news-item",
   ".grid-item",
   ".nw-c-NewsItem",
   "article",
   ".card",
   ".link-block",
   "li.news-list-item",
   ".NintendoCard-module__main",
   ".COMPT-module__tile",
   ".WhatsNewHighlightModule-module__tile"]

/-- The selector cascade loop (src/index.js lines 79-86): walk the candidate
list in order and keep the first selector whose match count is positive;
`none` models the sentinel empty `selectedSelector`. -/
def selectSelector (count : String → Nat) : List String → Option String
  | [] => none
  | s :: rest => if 0 < count s then some s else selectSelector count rest

/-- One node matched by the winning selector, represented by the results of
the cheerio queries the structured extractor performs on it
(src/index.js lines 199-247).  A missing attribute or an empty text is `""`. -/
structure Node where
  h3Text : String
  h2Text : String
  titleText : String
  headingText : String
  aHref : String
  isAnchor : Bool
  ownHref : String
  dateModule : String
  dateText : String
  timeText : String
  imgSrc : String
  imageImgSrc : String
  pictureSrcset : String
  pText : String
  descriptionText : String
  summaryText : String
deriving DecidableEq, Repr

/-- Title fallback chain: h3, h2, .title, .heading (src/index.js 206-209). -/
def deriveTitle (n : Node) : String :=
  jsOrStr n.h3Text (jsOrStr n.h2Text (jsOrStr n.titleText n.headingText))

/-- Link lookup: `find('a').attr('href')`, else the node itself when it is an
anchor (src/index.js 212-213). -/
def effectiveHref (n : Node) : String :=
  if n.aHref = "" ∧ n.isAnchor then n.ownHref else n.aHref

/-- `fullLink` plus the `|| NINTENDO_NEWS_URL` default applied when the item
is pushed (src/index.js 215 and 241). -/
def deriveLink (n : Node) : String :=
  jsOrStr
    (if effectiveHref n ≠ "" ∧ jsStartsWith (effectiveHref n) "/" = true
     then origin ++ effectiveHref n else effectiveHref n)
    newsUrl

/-- Date fallback chain (src/index.js 218-220). -/
def deriveDate (n : Node) : String :=
  jsOrStr n.dateModule (jsOrStr n.dateText n.timeText)

/-- Image fallback chain plus origin rewriting for a source that does not
start with "http" (src/index.js 223-229). -/
def deriveImage (n : Node) : String :=
  let u := jsOrStr n.imgSrc (jsOrStr n.imageImgSrc n.pictureSrcset)
  if u ≠ "" ∧ jsStartsWith u "http" = false then origin ++ u else u

/-- Description fallback chain (src/index.js 232-234). -/
def deriveDescription (n : Node) : String :=
  jsOrStr n.pText (jsOrStr n.descriptionText n.summaryText)

/-- The body of the `each` callback for one node: push an item exactly when
the derived title or the derived description is non-empty
(src/index.js 238-246). -/
def processNode (n : Node) : Option NewsItem :=
  if deriveTitle n ≠ "" ∨ deriveDescription n ≠ "" then
    some { title := jsOrStr (deriveTitle n) "Nintendo News Update",
           link := deriveLink n,
           date := deriveDate n,
           imageUrl := deriveImage n,
           description := deriveDescription n }
  else none

/-- The `each` loop of the structured extractor with its
`if (index >= limit) return;` guard (src/index.js 199-247): the callback
runs for every node but returns early once the node index reaches `limit`. -/
def extractLoop (limit : Nat) : Nat → List Node → List NewsItem
  | _, [] => []
  | idx, n :: rest =>
    if limit ≤ idx then extractLoop limit (idx + 1) rest
    else
      match processNode n with
      | some item => item :: extractLoop limit (idx + 1) rest
      | none => extractLoop limit (idx + 1) rest

/-- The structured (selector path) extractor. -/
def extractStructured (nodes : List Node) (limit : Nat) : List NewsItem :=
  extractLoop limit 0 nodes

/-- An image of the global pool before filtering (src/index.js 90-105):
source, alt text, and the text of the parent element. -/
structure PageImg where
  src : String
  alt : String
  parentText : String
deriving DecidableEq, Repr

/-- An entry of `allImages` (src/index.js 100-103). -/
structure ImgInfo where
  src : String
  alt : String
deriving DecidableEq, Repr

/-- Building `allImages`: keep images with a source and a news flavored alt
text, parent text or source path, resolving a leading "/" against the origin
(src/index.js 89-105). -/
def buildAllImages (imgs : List PageImg) : List ImgInfo :=
  imgs.filterMap fun im =>
    if im.src ≠ "" ∧
        (jsIncludes (jsToLower im.alt) "news" = true ∨
         jsIncludes (jsToLower im.parentText) "news" = true ∨
         jsIncludes (jsToLower im.src) "news" = true) then
      some { src := if jsStartsWith im.src "/" then origin ++ im.src else im.src,
             alt := im.alt }
    else none

/-- An `img` tag found inside an ancestor of an anchor (src/index.js 144-146). -/
structure ImgTag where
  src : String
  dataSrc : String
deriving DecidableEq, Repr

/-- An anchor element of the fallback path, represented by its trimmed text,
its href, and the first `img` of each ancestor level (`none` when the level
is missing or holds no image). -/
structure Anchor where
  text : String
  href : String
  parentImgs : List (Option ImgTag)
deriving DecidableEq, Repr

/-- `img.attr('src') || img.attr('data-src')` (src/index.js 146). -/
def imgValue (t : ImgTag) : String := jsOrStr t.src t.dataSrc

/-- The three-level parent walk (src/index.js 140-152): the loop keeps going
while `imageUrl` is still falsy, so an image tag whose src and data-src are
both empty is passed over. -/
def findParentImage (levels : List (Option ImgTag)) : String :=
  ((levels.take 3).filterMap fun lvl =>
      match lvl with
      | some t => if imgValue t ≠ "" then some (imgValue t) else none
      | none => none).headD ""

/-- The predicate of `allImages.find` (src/index.js 156-159). -/
def imageMatchScore (title : String) (img : ImgInfo) : Bool :=
  (!(img.alt == "") && jsIncludes title img.alt) ||
  (!(img.alt == "") && jsIncludes img.alt (jsSubstringTo title 20))

/-- The leading-date regex `^(\d{2}\/\d{2}\/\d{2})` (src/index.js 128):
returns the matched eight-character token when the string starts with it. -/
def matchLeadingDate (s : String) : Option String :=
  match s.toList with
  | d1 :: d2 :: c1 :: d3 :: d4 :: c2 :: d5 :: d6 :: _ =>
    if d1.isDigit ∧ d2.isDigit ∧ c1 = '/' ∧ d3.isDigit ∧ d4.isDigit ∧
        c2 = '/' ∧ d5.isDigit ∧ d6.isDigit then
      some (String.mk [d1, d2, c1, d3, d4, c2, d5, d6])
    else none
  | _ => none

/-- `rawTitle` of the fallback path (src/index.js 121): the marker phrase is
stripped (first occurrence, as the JavaScript string `replace` does) and the
result is trimmed. -/
def anchorRawTitle (a : Anchor) : String := jsTrim (jsReplaceFirst a.text "Read more" "")

/-- `date` of the fallback path (src/index.js 124-131). -/
def anchorDate (a : Anchor) : String :=
  match matchLeadingDate (anchorRawTitle a) with
  | some d => d
  | none => ""

/-- `title` of the fallback path (src/index.js 124-131): the date token, when
matched, is cut off the front and the rest trimmed. -/
def anchorTitle (a : Anchor) : String :=
  match matchLeadingDate (anchorRawTitle a) with
  | some d => jsTrim (jsSubstringFrom (anchorRawTitle a) d.length)
  | none => anchorRawTitle a

/-- `imageUrl` of the fallback path (src/index.js 137-163): the parent walk,
then the global pool matched against the title. -/
def anchorImage (allImages : List ImgInfo) (a : Anchor) : String :=
  let img0 := findParentImage a.parentImgs
  if img0 = "" ∧ 0 < allImages.length then
    match allImages.find? (imageMatchScore (anchorTitle a)) with
    | some im => im.src
    | none => img0
  else img0

/-- `fullLink` of the fallback path (src/index.js 166-172). -/
def anchorLink (a : Anchor) : String :=
  if jsIncludes a.href "://" = false then
    if jsStartsWith a.href "/" then origin ++ a.href else origin ++ "/" ++ a.href
  else a.href

/-- The body of the `$('a').each` callback of the fallback path
(src/index.js 114-182): keep an anchor whose text holds "Read more" and that
has a link target, strip the marker, split a leading date, associate an
image, and normalize the link. -/
def processAnchor (allImages : List ImgInfo) (a : Anchor) : Option NewsItem :=
  if a.text ≠ "" ∧ a.href ≠ "" ∧ jsIncludes a.text "Read more" = true then
    some { title := anchorTitle a, link := anchorLink a, date := anchorDate a,
           imageUrl := anchorImage allImages a, description := "Nintendo news update" }
  else none

/-- Number of days of a month, as the JavaScript Date string parser validates
them. -/
def daysInMonth (y m : Nat) : Nat :=
  if m = 2 then
    if (y % 4 = 0 ∧ y % 100 ≠ 0) ∨ y % 400 = 0 then 29 else 28
  else if m = 4 ∨ m = 6 ∨ m = 9 ∨ m = 11 then 30
  else 31

/-- Numeric value of a digit character. -/
def digitVal (c : Char) : Nat := c.toNat - '0'.toNat

/-- Model of `new Date("MM/DD/YY")` for the eight-character tokens the
fallback path produces: a two-digit year below 50 maps to 20xx, otherwise to
19xx, and an out-of-range month or day gives an invalid date (`none`).  The
result is a key whose order agrees with the millisecond order of valid dates. -/
def parseDateMMDDYY (s : String) : Option Nat :=
  match s.toList with
  | [m1, m2, c1, d1, d2, c2, y1, y2] =>
    if m1.isDigit ∧ m2.isDigit ∧ c1 = '/' ∧ d1.isDigit ∧ d2.isDigit ∧
        c2 = '/' ∧ y1.isDigit ∧ y2.isDigit then
      let mm := 10 * digitVal m1 + digitVal m2
      let dd := 10 * digitVal d1 + digitVal d2
      let yy := 10 * digitVal y1 + digitVal y2
      let yyyy := if yy < 50 then 2000 + yy else 1900 + yy
      if 1 ≤ mm ∧ mm ≤ 12 ∧ 1 ≤ dd ∧ dd ≤ daysInMonth yyyy mm then
        some (10000 * yyyy + 100 * mm + dd)
      else none
    else none
  | _ => none

/-- The sort comparator (src/index.js 185-189) read as a keep-in-order test:
`newsLe a b = true` exactly when the comparator result on `(a, b)` is at most
zero, so `a` may stay in front of `b`.  An undated `a` compares greater, an
undated `b` smaller, and a pair of valid dates compares by calendar value
descending; a comparator value of NaN (an unparseable date) acts as zero. -/
def newsLe (a b : NewsItem) : Bool :=
  if a.date = "" then false
  else if b.date = "" then true
  else
    match parseDateMMDDYY a.date, parseDateMMDDYY b.date with
    | some va, some vb => decide (vb ≤ va)
    | _, _ => true

/-- Stable insertion into a sorted list under `newsLe`. -/
def insertNews (x : NewsItem) : List NewsItem → List NewsItem
  | [] => [x]
  | h :: t => if newsLe h x then h :: insertNews x t else x :: h :: t

/-- The `newsLinks.sort(...)` call (src/index.js 185-189), modelled as a
stable insertion sort driven by the comparator. -/
def sortNews : List NewsItem → List NewsItem
  | [] => []
  | h :: t => insertNews h (sortNews t)

/-- The heuristic fallback extractor (src/index.js 108-193): filter and
process the anchors, sort, and truncate to `limit`. -/
def extractHeuristic (allImages : List ImgInfo) (anchors : List Anchor)
    (limit : Nat) : List NewsItem :=
  (sortNews (anchors.filterMap (processAnchor allImages))).take limit

/-- A parsed listing document: the node list each selector matches, the
anchor elements, and the images of the page. -/
structure Document where
  nodesFor : String → List Node
  anchors : List Anchor
  pageImgs : List PageImg

/-- fetchNintendoNews (src/index.js 51-255).  The argument stands for the
result of the listing fetch; the surrounding try/catch turns any failure
into an empty list. -/
def fetchNintendoNews (resp : Except Unit Document) (limit : Nat) : List NewsItem :=
  match resp with
  | Except.error _ => []
  | Except.ok doc =>
    let allImages := buildAllImages doc.pageImgs
    match selectSelector (fun s => (doc.nodesFor s).length) potentialSelectors with
    | some sel => extractStructured (doc.nodesFor sel) limit
    | none => extractHeuristic allImages doc.anchors limit

/-- An article page as seen by fetchArticleDetails (src/index.js 22-48),
represented by the eight query results; a missing value is `""`. -/
structure ArticlePage where
  ogImage : String
  twitterImage : String
  articleHeaderImg : String
  articleContentFirstImg : String
  firstImg : String
  ogDescription : String
  metaDescription : String
  articleContentFirstP : String
deriving DecidableEq, Repr

/-- The result record of fetchArticleDetails. -/
structure ArticleDetails where
  imageUrl : String
  description : String
deriving DecidableEq, Repr

/-- fetchArticleDetails (src/index.js 22-48): the catch branch returns the
default record, the normal branch runs the two fallback chains. -/
def fetchArticleDetails (resp : Except Unit ArticlePage) : ArticleDetails :=
  match resp with
  | Except.error _ => { imageUrl := "", description := "Nintendo news update" }
  | Except.ok p =>
    let imageUrl := jsOrStr p.ogImage (jsOrStr p.twitterImage
      (jsOrStr p.articleHeaderImg (jsOrStr p.articleContentFirstImg p.firstImg)))
    let description := jsOrStr p.ogDescription
      (jsOrStr p.metaDescription p.articleContentFirstP)
    { imageUrl := jsOrStr imageUrl "",
      description := jsOrStr description "Nintendo news update" }

/-- The title-length guard of the interaction handler
(src/index.js 450-462): splits a long title at `indexOf('.')` when that
first period lies strictly between 10 and 240, otherwise hard-truncates at
250 characters with an ellipsis; the cut remainder lands in front of the
description. -/
def truncateTitle (title description : String) : String × String :=
  if title ≠ "" ∧ 250 < title.length then
    if 10 < jsIndexOfDot title ∧ jsIndexOfDot title < 240 then
      (jsTrim (jsSubstringTo title ((jsIndexOfDot title).toNat + 1)),
       jsTrim (jsSubstringFrom title ((jsIndexOfDot title).toNat + 1)) ++
         (if description ≠ "" then "\n\n" ++ description else ""))
    else
      (jsSubstringTo title 250 ++ "...",
       jsSubstringFrom title 250 ++
         (if description ≠ "" then "...\n\n" ++ description else "..."))
  else (title, description)

/-- Modelled from the spec: the Bottleneck limiter wrapped around axios
(src/unnamed/part_000 lines 13-25) is library code that is not part of this
repository, so its dispatch schedule is taken from the spec: requests run one
at a time with at least `minTime` between dispatches, a reservoir of
`reservoirSize` permits is refilled fully every `refreshInterval`
milliseconds, and surplus requests queue.  `dispatchTime n` is the earliest
dispatch instant (in milliseconds) of request number `n` (zero-based) when
all requests are issued at time 0. -/
def minTime : Nat := 2000

/-- Reservoir size of the limiter (src/unnamed/part_000 line 17). -/
def reservoirSize : Nat := 30

/-- Reservoir refresh interval in milliseconds (src/unnamed/part_000 line 19). -/
def refreshInterval : Nat := 60000

/-- Modelled from the spec: earliest dispatch time of the zero-based request
number `n` under the limiter policy described above. -/
def dispatchTime : Nat → Nat
  | 0 => 0
  | n + 1 => max (dispatchTime n + minTime) (refreshInterval * ((n + 1) / reservoirSize))

/-- Parsed calendar key of an item, with 0 for an absent or invalid date. -/
def dVal (x : NewsItem) : Nat := (parseDateMMDDYY x.date).getD 0

/-- An item date is either absent or validly parseable. -/
def okDate (x : NewsItem) : Bool := (x.date == "") || (parseDateMMDDYY x.date).isSome

/-- Adjacent-order invariant of the sorted fallback list: a dated item never
follows an undated one, and dated items decrease by calendar value. -/
def newsOrd (a b : NewsItem) : Prop :=
  b.date = "" ∨ (a.date ≠ "" ∧ dVal b ≤ dVal a)

/-- A node all of whose query results are empty. -/
def emptyNode : Node :=
  { h3Text := "", h2Text := "", titleText := "", headingText := "",
    aHref := "", isAnchor := false, ownHref := "",
    dateModule := "", dateText := "", timeText := "",
    imgSrc := "", imageImgSrc := "", pictureSrcset := "",
    pText := "", descriptionText := "", summaryText := "" }

/-- C1 counterexample input: a node with no title and no description. -/
def nodeEmptyC1 : Node := emptyNode

/-- C1 counterexample input: a node carrying a title. -/
def nodeGoodC1 : Node := { emptyNode with h3Text := "Good" }

/-- C2 counterexample input: a node whose href is relative without a leading
slash. -/
def nodeRelC2 : Node := { emptyNode with h3Text := "T", aHref := "news/a" }

/-- C2 witness input: a node whose href starts with a slash. -/
def nodeAbsC2 : Node := { emptyNode with h3Text := "T", aHref := "/news/x" }

/-- C3 counterexample input: 260 characters, periods at indices 2 and 120. -/
def tC3 : String :=
  String.mk (['a', 'b', '.'] ++ List.replicate 117 'x' ++ ['.'] ++ List.replicate 139 'y')

/-- C3 witness input: 260 characters whose only period sits at index 120. -/
def t260 : String :=
  String.mk (List.replicate 120 'a' ++ ['.'] ++ List.replicate 139 'b')

/-- C4 example anchor dated 02/15/24. -/
def c4AnchorB : Anchor := { text := "02/15/24Beta Read more", href := "/b", parentImgs := [] }

/-- C4 example anchor without a date. -/
def c4AnchorN : Anchor := { text := "No date news Read more", href := "/n", parentImgs := [] }

/-- C4 example anchor dated 03/01/24. -/
def c4AnchorA : Anchor := { text := "03/01/24Alpha Read more", href := "/a", parentImgs := [] }

/-- C4 example anchors in scrambled document order. -/
def c4Anchors : List Anchor := [c4AnchorB, c4AnchorN, c4AnchorA]

/-- C4 expected first item. -/
def c4ItemA : NewsItem :=
  { title := "Alpha", link := "https://www.nintendo.com/a", date := "03/01/24",
    imageUrl := "", description := "Nintendo news update" }

/-- C4 expected second item. -/
def c4ItemB : NewsItem :=
  { title := "Beta", link := "https://www.nintendo.com/b", date := "02/15/24",
    imageUrl := "", description := "Nintendo news update" }

/-- C4 expected third item. -/
def c4ItemN : NewsItem :=
  { title := "No date news", link := "https://www.nintendo.com/n", date := "",
    imageUrl := "", description := "Nintendo news update" }

/-- C6 witness input anchor. -/
def aC6 : Anchor := { text := "03/15/24New Update Read more", href := "/article/1", parentImgs := [] }

/-- C7 witness input: an article page where no recognized selector matches. -/
def blankPage : ArticlePage :=
  { ogImage := "", twitterImage := "", articleHeaderImg := "",
    articleContentFirstImg := "", firstImg := "",
    ogDescription := "", metaDescription := "", articleContentFirstP := "" }

/-! Helper lemmas. -/

theorem hasSub_nil (l : List Char) : hasSub l [] = true := by
  cases l <;> simp [hasSub, leadMatch]

theorem leadMatch_append (t : List Char) :
    ∀ s p : List Char, leadMatch s p = true → leadMatch (s ++ t) p = true := by
  intro s p
  induction p generalizing s with
  | nil => intro _; cases s <;> simp [leadMatch]
  | cons b bs ih =>
    intro h
    cases s with
    | nil => simp [leadMatch] at h
    | cons a as =>
      simp only [List.cons_append, leadMatch, Bool.and_eq_true, beq_iff_eq] at h ⊢
      exact ⟨h.1, ih as h.2⟩

theorem hasSub_append (s t p : List Char) (h : hasSub s p = true) :
    hasSub (s ++ t) p = true := by
  induction s with
  | nil =>
    have hp : p = [] := by simpa [hasSub, List.isEmpty_iff] using h
    subst hp
    simpa using hasSub_nil t
  | cons c cs ih =>
    simp only [hasSub, Bool.or_eq_true] at h
    rcases h with h | h
    · simp only [List.cons_append, hasSub, Bool.or_eq_true]
      exact Or.inl (by simpa [List.cons_append] using leadMatch_append t (c :: cs) p h)
    · simp only [List.cons_append, hasSub, Bool.or_eq_true]
      exact Or.inr (ih h)

theorem string_data_append (a b : String) : (a ++ b).data = a.data ++ b.data := by
  cases a; cases b; rfl

theorem jsIncludes_append (a b sub : String) (h : jsIncludes a sub = true) :
    jsIncludes (a ++ b) sub = true := by
  show hasSub (a ++ b).data sub.data = true
  rw [string_data_append]
  exact hasSub_append a.data b.data sub.data h

theorem append_ne_empty_left (a b : String) (ha : a ≠ "") : a ++ b ≠ "" := by
  intro h
  apply ha
  have h2 : a.data ++ b.data = ([] : List Char) := by
    rw [← string_data_append, h]
  have h3 : a.data = [] := (List.append_eq_nil.mp h2).1
  cases a
  simp only at h3
  rw [h3]

theorem extractLoop_eq (limit : Nat) :
    ∀ (nodes : List Node) (idx : Nat),
      extractLoop limit idx nodes = (nodes.take (limit - idx)).filterMap processNode := by
  intro nodes
  induction nodes with
  | nil => intro idx; simp [extractLoop]
  | cons n rest ih =>
    intro idx
    by_cases hle : limit ≤ idx
    · have h0 : limit - idx = 0 := Nat.sub_eq_zero_of_le hle
      have h1 : limit - (idx + 1) = 0 := by omega
      simp [extractLoop, hle, h0, ih, h1]
    · have h1 : limit - idx = (limit - (idx + 1)) + 1 := by omega
      rw [h1]
      simp only [extractLoop, List.take_succ_cons, List.filterMap_cons]
      rw [if_neg hle]
      cases hp : processNode n <;> simp [hp, ih]

theorem selectSelector_append (count : String → Nat) (l1 l2 : List String) (S : String)
    (hzero : ∀ s ∈ l1, count s = 0) (hS : 0 < count S) :
    selectSelector count (l1 ++ S :: l2) = some S := by
  induction l1 with
  | nil => simp [selectSelector, hS]
  | cons a l ih =>
    have ha : count a = 0 := hzero a (by simp)
    simp only [List.cons_append, selectSelector, ha]
    rw [if_neg (by omega)]
    exact ih (fun s hs => hzero s (by simp [hs]))

theorem selectSelector_none_iff (count : String → Nat) (l : List String) :
    selectSelector count l = none ↔ ∀ s ∈ l, count s = 0 := by
  induction l with
  | nil => simp [selectSelector]
  | cons a t ih =>
    simp only [selectSelector]
    split
    · rename_i ha
      simp only [List.forall_mem_cons]
      constructor
      · intro h; exact Option.noConfusion h
      · rintro ⟨h1, _⟩; omega
    · rename_i ha
      rw [ih]
      simp only [List.forall_mem_cons]
      constructor
      · intro h; exact ⟨by omega, h⟩
      · rintro ⟨_, h⟩; exact h

/-! Claim theorems. -/

/-- C1 (amended): the structured extractor returns at most `limit` items and
drops a node exactly when its derived title and description are both empty,
but only the first `limit` nodes of the matched node list are examined at
all: a dropped node still uses up one of the `limit` iteration slots, so a
later non-empty node cannot take its place. -/
theorem extractStructured_spec (nodes : List Node) (limit : Nat) :
    (extractStructured nodes limit).length ≤ limit
    ∧ extractStructured nodes limit = (nodes.take limit).filterMap processNode
    ∧ ∀ n : Node, (processNode n = none ↔ (deriveTitle n = "" ∧ deriveDescription n = "")) := by
  have hchar : extractStructured nodes limit = (nodes.take limit).filterMap processNode := by
    simpa using extractLoop_eq limit nodes 0
  refine ⟨?_, hchar, ?_⟩
  · rw [hchar]
    calc ((nodes.take limit).filterMap processNode).length
        ≤ (nodes.take limit).length := List.length_filterMap_le _ _
      _ ≤ limit := by rw [List.length_take]; omega
  · intro n
    unfold processNode
    by_cases h1 : deriveTitle n = "" <;> by_cases h2 : deriveDescription n = "" <;>
      simp [h1, h2]

/-- C1 counterexample: with `limit = 1` and a node list whose first node has
an empty title and description and whose second node has a title, the
extractor returns nothing — the dropped first node consumed the only
iteration slot — although the second node alone does produce an item.  This
refutes the reading that a dropped node is not counted toward `limit`. -/
theorem extractStructured_quota_cex :
    extractStructured [nodeEmptyC1, nodeGoodC1] 1 = []
    ∧ extractStructured [nodeGoodC1] 1 =
        [{ title := "Good", link := newsUrl, date := "", imageUrl := "",
           description := "" }] :=
  ⟨rfl, rfl⟩

/-- C5: the selector cascade returns the first candidate of the fixed list
whose match count is positive, regardless of the counts of the later
candidates, and returns `none` exactly when every candidate counts zero. -/
theorem selectorCascade_spec (count : String → Nat) (l1 l2 : List String) (S : String)
    (hsplit : potentialSelectors = l1 ++ S :: l2)
    (hzero : ∀ s ∈ l1, count s = 0) (hS : 0 < count S) :
    selectSelector count potentialSelectors = some S
    ∧ ∀ cnt : String → Nat,
        (selectSelector cnt potentialSelectors = none ↔
          ∀ s ∈ potentialSelectors, cnt s = 0) := by
  refine ⟨?_, fun cnt => selectSelector_none_iff cnt potentialSelectors⟩
  rw [hsplit]
  exact selectSelector_append count l1 l2 S hzero hS

/-- C5 witness: with the third candidate matching three nodes and the two
candidates before it matching none, the cascade picks the third. -/
theorem selectorCascade_spec_witness :
    selectSelector (fun s => if s = ".grid-item" then 3 else 0) potentialSelectors =
      some ".grid-item" :=
  (selectorCascade_spec (fun s => if s = ".grid-item" then 3 else 0)
    [".WhatIsNewPage-module__item", ".news-item"]
    [".nw-c-NewsItem", "article", ".card", ".link-block", "li.news-list-item",
     ".NintendoCard-module__main", ".COMPT-module__tile",
     ".WhatsNewHighlightModule-module__tile"]
    ".grid-item" rfl (by decide) (by decide)).1

/-- C7: fetchArticleDetails is a total function (it never raises): it returns
the default record on a failed fetch, and also on a page where none of the
recognized image or description selectors produce a value. -/
theorem fetchArticleDetails_spec (p : ArticlePage)
    (h1 : p.ogImage = "") (h2 : p.twitterImage = "") (h3 : p.articleHeaderImg = "")
    (h4 : p.articleContentFirstImg = "") (h5 : p.firstImg = "")
    (h6 : p.ogDescription = "") (h7 : p.metaDescription = "")
    (h8 : p.articleContentFirstP = "") :
    fetchArticleDetails (Except.ok p) =
      { imageUrl := "", description := "Nintendo news update" }
    ∧ ∀ e : Unit, fetchArticleDetails (Except.error e) =
        { imageUrl := "", description := "Nintendo news update" } := by
  refine ⟨?_, fun e => rfl⟩
  simp [fetchArticleDetails, jsOrStr, h1, h2, h3, h4, h5, h6, h7, h8]

/-- C7 witness: the all-empty article page. -/
theorem fetchArticleDetails_spec_witness :
    fetchArticleDetails (Except.ok blankPage) =
      { imageUrl := "", description := "Nintendo news update" } :=
  (fetchArticleDetails_spec blankPage rfl rfl rfl rfl rfl rfl rfl rfl).1

/-- C8: a failure of the listing fetch is absorbed by the try/catch of
fetchNintendoNews, which returns the empty list; the function is total, so a
caller always receives a well-formed (possibly empty) list. -/
theorem fetchNintendoNews_error_spec (limit : Nat) :
    fetchNintendoNews (Except.error ()) limit = [] := rfl

/-- C9: under the limiter policy (2000 ms minimum spacing, one request in
flight, 30 permits refilled every 60000 ms), consecutive dispatches are at
least 2000 ms apart and the 31st request (zero-based number 30) is not
dispatched — hence cannot complete — before the 60000 ms reservoir boundary. -/
theorem rateLimiter_spec (n : Nat) :
    dispatchTime n + 2000 ≤ dispatchTime (n + 1) ∧ 60000 ≤ dispatchTime 30 := by
  constructor
  · exact le_max_left (dispatchTime n + minTime) (refreshInterval * ((n + 1) / reservoirSize))
  · decide

theorem mem_insertNews {x y : NewsItem} :
    ∀ {l : List NewsItem}, y ∈ insertNews x l → y = x ∨ y ∈ l := by
  intro l
  induction l with
  | nil =>
    intro h
    simp only [insertNews] at h
    exact Or.inl (List.mem_singleton.mp h)
  | cons a t ih =>
    intro hy
    simp only [insertNews] at hy
    split at hy
    · rcases List.mem_cons.mp hy with h1 | h2
      · exact Or.inr (List.mem_cons.mpr (Or.inl h1))
      · rcases ih h2 with h3 | h4
        · exact Or.inl h3
        · exact Or.inr (List.mem_cons.mpr (Or.inr h4))
    · rcases List.mem_cons.mp hy with h1 | h2
      · exact Or.inl h1
      · exact Or.inr h2

theorem mem_sortNews {y : NewsItem} :
    ∀ {l : List NewsItem}, y ∈ sortNews l → y ∈ l := by
  intro l
  induction l with
  | nil => intro h; simp [sortNews] at h
  | cons a t ih =>
    intro hy
    simp only [sortNews] at hy
    rcases mem_insertNews hy with h1 | h2
    · exact List.mem_cons.mpr (Or.inl h1)
    · exact List.mem_cons.mpr (Or.inr (ih h2))

theorem okDate_parse {x : NewsItem} (hx : okDate x = true) (hd : x.date ≠ "") :
    ∃ v, parseDateMMDDYY x.date = some v := by
  have hx2 : x.date = "" ∨ (parseDateMMDDYY x.date).isSome = true := by
    simpa [okDate] using hx
  rcases hx2 with h | h
  · exact absurd h hd
  · exact Option.isSome_iff_exists.mp h

theorem newsLe_ord_of_true {a b : NewsItem} (ha : okDate a = true) (hb : okDate b = true)
    (hle : newsLe a b = true) : newsOrd a b := by
  unfold newsLe at hle
  by_cases hA : a.date = ""
  · rw [if_pos hA] at hle
    exact Bool.noConfusion hle
  · rw [if_neg hA] at hle
    by_cases hB : b.date = ""
    · exact Or.inl hB
    · rw [if_neg hB] at hle
      obtain ⟨va, hva⟩ := okDate_parse ha hA
      obtain ⟨vb, hvb⟩ := okDate_parse hb hB
      rw [hva, hvb] at hle
      refine Or.inr ⟨hA, ?_⟩
      have hv : vb ≤ va := of_decide_eq_true hle
      simp [dVal, hva, hvb, hv]

theorem newsLe_ord_of_false {a b : NewsItem} (ha : okDate a = true) (hb : okDate b = true)
    (hle : newsLe a b = false) : newsOrd b a := by
  unfold newsLe at hle
  by_cases hA : a.date = ""
  · exact Or.inl hA
  · rw [if_neg hA] at hle
    by_cases hB : b.date = ""
    · rw [if_pos hB] at hle
      exact Bool.noConfusion hle
    · rw [if_neg hB] at hle
      obtain ⟨va, hva⟩ := okDate_parse ha hA
      obtain ⟨vb, hvb⟩ := okDate_parse hb hB
      rw [hva, hvb] at hle
      refine Or.inr ⟨hB, ?_⟩
      have hv : ¬ vb ≤ va := of_decide_eq_false hle
      have hv2 : va ≤ vb := by omega
      simp [dVal, hva, hvb, hv2]

theorem newsOrd_trans {x h y : NewsItem} (h1 : newsOrd x h) (h2 : newsOrd h y) :
    newsOrd x y := by
  rcases h2 with h2 | ⟨hh, hvy⟩
  · exact Or.inl h2
  · rcases h1 with h1 | ⟨hx, hvh⟩
    · exact absurd h1 hh
    · exact Or.inr ⟨hx, le_trans hvy hvh⟩

theorem pairwise_insertNews {x : NewsItem} :
    ∀ {l : List NewsItem}, okDate x = true → (∀ y ∈ l, okDate y = true) →
      l.Pairwise newsOrd → (insertNews x l).Pairwise newsOrd := by
  intro l
  induction l with
  | nil =>
    intro _ _ _
    simp [insertNews]
  | cons h t ih =>
    intro hx hl hp
    rw [List.pairwise_cons] at hp
    simp only [insertNews]
    split
    · rename_i hle
      rw [List.pairwise_cons]
      constructor
      · intro y hy
        rcases mem_insertNews hy with rfl | hyt
        · exact newsLe_ord_of_true (hl h (by simp)) hx hle
        · exact hp.1 y hyt
      · exact ih hx (fun y hy => hl y (by simp [hy])) hp.2
    · rename_i hle
      have hfalse : newsLe h x = false := by
        cases hb : newsLe h x with
        | true => exact absurd hb hle
        | false => rfl
      have hxh : newsOrd x h := newsLe_ord_of_false (hl h (by simp)) hx hfalse
      rw [List.pairwise_cons]
      constructor
      · intro y hy
        rcases List.mem_cons.mp hy with rfl | hyt
        · exact hxh
        · exact newsOrd_trans hxh (hp.1 y hyt)
      · rw [List.pairwise_cons]
        exact ⟨hp.1, hp.2⟩

theorem pairwise_sortNews :
    ∀ {l : List NewsItem}, (∀ y ∈ l, okDate y = true) →
      (sortNews l).Pairwise newsOrd := by
  intro l
  induction l with
  | nil => intro _; simp [sortNews]
  | cons h t ih =>
    intro hl
    simp only [sortNews]
    exact pairwise_insertNews (hl h (by simp))
      (fun y hy => hl y (by simp [mem_sortNews hy]))
      (ih (fun y hy => hl y (by simp [hy])))

theorem processAnchor_some_descr (allImages : List ImgInfo) (a : Anchor) (item : NewsItem)
    (h : processAnchor allImages a = some item) :
    item.description = "Nintendo news update" := by
  unfold processAnchor at h
  split at h
  · rw [Option.some_inj] at h
    subst h
    rfl
  · exact Option.noConfusion h

theorem processAnchor_some_link (allImages : List ImgInfo) (a : Anchor) (item : NewsItem)
    (h : processAnchor allImages a = some item) : jsIncludes item.link "://" = true := by
  unfold processAnchor at h
  split at h
  · rw [Option.some_inj] at h
    subst h
    show jsIncludes (anchorLink a) "://" = true
    unfold anchorLink
    split
    · split
      · exact jsIncludes_append origin a.href "://" (by decide)
      · exact jsIncludes_append origin ("/" ++ a.href) "://" (by decide)
    · rename_i hinc
      cases hb : jsIncludes a.href "://" with
      | true => rfl
      | false => exact absurd hb hinc
  · exact Option.noConfusion h

/-- C4: the heuristic fallback output is sorted with every dated item before
every undated one and dated items in calendar-descending order of their
parsed dates (hypothesis: every produced date is absent or parseable, which
is the regime the claim speaks about), the output is truncated to `limit`,
and the concrete three-anchor example comes out in the order
[03/01/24, 02/15/24, no-date] even though the input order is scrambled. -/
theorem heuristic_sort_spec (allImages : List ImgInfo) (anchors : List Anchor) (limit : Nat)
    (hok : (anchors.filterMap (processAnchor allImages)).all okDate = true) :
    (extractHeuristic allImages anchors limit).Pairwise newsOrd
    ∧ (extractHeuristic allImages anchors limit).length ≤ limit
    ∧ extractHeuristic [] c4Anchors 5 = [c4ItemA, c4ItemB, c4ItemN] := by
  refine ⟨?_, ?_, by decide⟩
  · have hall : ∀ y ∈ anchors.filterMap (processAnchor allImages), okDate y = true :=
      List.all_eq_true.mp hok
    have hs := pairwise_sortNews hall
    exact List.Pairwise.sublist (List.take_sublist _ _) hs
  · unfold extractHeuristic
    rw [List.length_take]
    omega

/-- C4 witness: the scrambled three-anchor example satisfies the date
hypothesis and sorts to [03/01/24, 02/15/24, no-date]. -/
theorem heuristic_sort_spec_witness :
    (c4Anchors.filterMap (processAnchor [])).all okDate = true
    ∧ extractHeuristic [] c4Anchors 5 = [c4ItemA, c4ItemB, c4ItemN] :=
  ⟨by decide, (heuristic_sort_spec [] c4Anchors 5 (by decide)).2.2⟩

/-- C10: every item of the heuristic fallback output carries exactly the
placeholder description "Nintendo news update"; the fallback never derives a
genuine description from the listing page. -/
theorem heuristic_description_spec (allImages : List ImgInfo) (anchors : List Anchor)
    (limit : Nat) :
    (extractHeuristic allImages anchors limit).all
      (fun it => it.description == "Nintendo news update") = true := by
  rw [List.all_eq_true]
  intro it hit
  have h1 : it ∈ sortNews (anchors.filterMap (processAnchor allImages)) :=
    List.mem_of_mem_take hit
  have h2 : it ∈ anchors.filterMap (processAnchor allImages) := mem_sortNews h1
  obtain ⟨a, _, ha⟩ := List.mem_filterMap.mp h2
  simp [processAnchor_some_descr allImages a it ha]

/-- C2 (amended): every link stored by the heuristic fallback path is
absolute (it contains "://"; the origin is prepended when the raw target
lacks it); in the selector path an href that starts with "/" is resolved
against https://www.nintendo.com and a missing href falls back to the
absolute listing URL — but a relative href that does not start with "/" is
stored unchanged there. -/
theorem link_resolution_spec (allImages : List ImgInfo) (anchors : List Anchor)
    (limit : Nat) (n : Node) (h : jsStartsWith (effectiveHref n) "/" = true) :
    (extractHeuristic allImages anchors limit).all
        (fun it => jsIncludes it.link "://") = true
    ∧ deriveLink n = origin ++ effectiveHref n
    ∧ ∀ m : Node, effectiveHref m = "" → deriveLink m = newsUrl := by
  refine ⟨?_, ?_, ?_⟩
  · rw [List.all_eq_true]
    intro it hit
    have h1 : it ∈ sortNews (anchors.filterMap (processAnchor allImages)) :=
      List.mem_of_mem_take hit
    have h2 : it ∈ anchors.filterMap (processAnchor allImages) := mem_sortNews h1
    obtain ⟨a, _, ha⟩ := List.mem_filterMap.mp h2
    exact processAnchor_some_link allImages a it ha
  · have hne : effectiveHref n ≠ "" := by
      intro he
      rw [he] at h
      exact Bool.noConfusion h
    unfold deriveLink
    rw [if_pos ⟨hne, h⟩]
    unfold jsOrStr
    rw [if_neg (append_ne_empty_left origin (effectiveHref n) (by decide))]
  · intro m hm
    unfold deriveLink
    rw [hm]
    simp [jsOrStr]

/-- C2 witness: a node whose href starts with "/" has its link resolved
against the origin. -/
theorem link_resolution_spec_witness :
    jsStartsWith (effectiveHref nodeAbsC2) "/" = true
    ∧ deriveLink nodeAbsC2 = origin ++ effectiveHref nodeAbsC2 :=
  ⟨by decide, (link_resolution_spec [] [] 5 nodeAbsC2 (by decide)).2.1⟩

/-- C2 counterexample: a node whose href is "news/a" — relative, without a
leading slash — is stored with that relative link unchanged, so the returned
link is not an absolute URL. -/
theorem link_relative_cex :
    (extractStructured [nodeRelC2] 5).map (fun it => it.link) = ["news/a"]
    ∧ jsIncludes "news/a" "://" = false :=
  ⟨rfl, rfl⟩

/-- C3 (amended): a title of at most 250 characters is unchanged.  For a
longer title the guard inspects only the FIRST period of the whole title
(JavaScript `indexOf`): when that first period sits at an index strictly
between 10 and 240 the title is cut just after it (and trimmed) and the
remainder is prepended to the description; in every other case — even when a
later period does lie in that window — the title is hard-truncated to its
first 250 characters plus an ellipsis, 253 characters in total, and the
remainder from character 250 on is moved in front of the description. -/
theorem truncateTitle_spec (title desc : String) :
    (title.length ≤ 250 → truncateTitle title desc = (title, desc))
    ∧ (∀ p : Nat, 250 < title.length → jsIndexOfDot title = (p : Int) →
        10 < p → p < 240 →
        truncateTitle title desc =
          (jsTrim (jsSubstringTo title (p + 1)),
           jsTrim (jsSubstringFrom title (p + 1)) ++
             (if desc ≠ "" then "\n\n" ++ desc else "")))
    ∧ (250 < title.length →
        (∀ p : Nat, jsIndexOfDot title = (p : Int) → p ≤ 10 ∨ 240 ≤ p) →
        truncateTitle title desc =
          (jsSubstringTo title 250 ++ "...",
           jsSubstringFrom title 250 ++
             (if desc ≠ "" then "...\n\n" ++ desc else "..."))
        ∧ (truncateTitle title desc).1.length = 253) := by
  refine ⟨?_, ?_, ?_⟩
  · intro hlen
    unfold truncateTitle
    rw [if_neg (fun hc => absurd hc.2 (by omega))]
  · intro p hlen hidx h10 h240
    have hne : title ≠ "" := by
      intro he
      rw [he] at hlen
      exact absurd hlen (by decide)
    have h10i : (10 : Int) < jsIndexOfDot title := by
      rw [hidx]; exact_mod_cast h10
    have h240i : jsIndexOfDot title < 240 := by
      rw [hidx]; exact_mod_cast h240
    unfold truncateTitle
    rw [if_pos ⟨hne, hlen⟩, if_pos ⟨h10i, h240i⟩, hidx]
    norm_num
  · intro hlen hnd
    have hne : title ≠ "" := by
      intro he
      rw [he] at hlen
      exact absurd hlen (by decide)
    have hcnd : ¬ (10 < jsIndexOfDot title ∧ jsIndexOfDot title < 240) := by
      rintro ⟨ha, hb⟩
      cases hfi : title.toList.findIdx? (fun c => c == '.') with
      | none =>
        rw [jsIndexOfDot, hfi] at ha
        simp at ha
      | some i =>
        have hi : jsIndexOfDot title = (i : Int) := by rw [jsIndexOfDot, hfi]; rfl
        rw [hi] at ha hb
        have := hnd i hi
        have ha2 : 10 < i := by exact_mod_cast ha
        have hb2 : i < 240 := by exact_mod_cast hb
        omega
    unfold truncateTitle
    rw [if_pos ⟨hne, hlen⟩, if_neg hcnd]
    refine ⟨rfl, ?_⟩
    have hdl : title.length = title.data.length := rfl
    have h1 : (jsSubstringTo title 250).length = 250 := by
      have h2 : (jsSubstringTo title 250).length = min 250 title.data.length := by
        show (title.data.take 250).length = min 250 title.data.length
        exact List.length_take _ _
      omega
    show (jsSubstringTo title 250 ++ "...").length = 253
    have h3 : (jsSubstringTo title 250 ++ "...").length =
        (jsSubstringTo title 250).length + ("..." : String).length := by
      show ((jsSubstringTo title 250).data ++ ("..." : String).data).length = _
      rw [List.length_append]
      rfl
    rw [h3, h1]
    decide

/-- C3 witness: the spec example — a 260-character title whose only period
sits at index 120 — is split just after that period into a 121-character
title, with the remainder becoming the description. -/
theorem truncateTitle_spec_witness :
    250 < t260.length ∧ jsIndexOfDot t260 = ((120 : Nat) : Int)
    ∧ truncateTitle t260 "" =
        (jsTrim (jsSubstringTo t260 121), jsTrim (jsSubstringFrom t260 121) ++ "")
    ∧ (truncateTitle t260 "").1.length = 121 := by
  refine ⟨by decide, by decide, ?_, by decide⟩
  have h := (truncateTitle_spec t260 "").2.1 120 (by decide) (by decide)
    (by decide) (by decide)
  simpa using h

/-- C3 counterexample: a 260-character title with periods at indices 2 and
120.  The period at index 120 lies strictly between 10 and 240, so the claim
demands a split just after it (a 121-character title); the code instead
looks only at the first period (index 2), rejects it, and hard-truncates to
253 characters, moving the remainder from character 250 on into the
description. -/
theorem truncateTitle_firstDot_cex :
    tC3.length = 260
    ∧ tC3.toList.getD 120 'z' = '.'
    ∧ (truncateTitle tC3 "").1.length = 253
    ∧ (truncateTitle tC3 "").1 ≠ jsTrim (jsSubstringTo tC3 121)
    ∧ (truncateTitle tC3 "").2 = jsSubstringFrom tC3 250 ++ "..." :=
  ⟨by decide, by decide, by decide, by decide, by decide⟩

/-- C6: an anchor that passes the keep test (non-empty text with the marker
phrase and a link target) yields an item whose raw title is the trimmed text
with the first marker occurrence removed; when that raw title starts with
the two-digit/two-digit/two-digit date pattern, the matched eight-character
token becomes the date and the trimmed rest becomes the title, otherwise the
whole raw title is the title and the date is the empty string. -/
theorem heuristic_split_spec (allImages : List ImgInfo) (a : Anchor)
    (h : a.text ≠ "" ∧ a.href ≠ "" ∧ jsIncludes a.text "Read more" = true) :
    ∃ item : NewsItem, processAnchor allImages a = some item
      ∧ ((∃ d : String, matchLeadingDate (anchorRawTitle a) = some d ∧ item.date = d
            ∧ item.title = jsTrim (jsSubstringFrom (anchorRawTitle a) d.length))
        ∨ (matchLeadingDate (anchorRawTitle a) = none ∧ item.date = ""
            ∧ item.title = anchorRawTitle a)) := by
  refine ⟨{ title := anchorTitle a, link := anchorLink a, date := anchorDate a,
            imageUrl := anchorImage allImages a,
            description := "Nintendo news update" }, ?_, ?_⟩
  · unfold processAnchor
    rw [if_pos h]
  · cases hm : matchLeadingDate (anchorRawTitle a) with
    | some d =>
      left
      refine ⟨d, rfl, ?_, ?_⟩
      · show anchorDate a = d
        unfold anchorDate
        rw [hm]
      · show anchorTitle a = jsTrim (jsSubstringFrom (anchorRawTitle a) d.length)
        unfold anchorTitle
        rw [hm]
    | none =>
      right
      refine ⟨rfl, ?_, ?_⟩
      · show anchorDate a = ""
        unfold anchorDate
        rw [hm]
      · show anchorTitle a = anchorRawTitle a
        unfold anchorTitle
        rw [hm]

/-- C6 witness: the anchor "03/15/24New Update Read more" with target
"/article/1" splits into date "03/15/24" and title "New Update". -/
theorem heuristic_split_spec_witness :
    ∃ item : NewsItem, processAnchor [] aC6 = some item
      ∧ ((∃ d : String, matchLeadingDate (anchorRawTitle aC6) = some d ∧ item.date = d
            ∧ item.title = jsTrim (jsSubstringFrom (anchorRawTitle aC6) d.length))
        ∨ (matchLeadingDate (anchorRawTitle aC6) = none ∧ item.date = ""
            ∧ item.title = anchorRawTitle aC6)) :=
  heuristic_split_spec [] aC6 (by refine ⟨by decide, by decide, by decide⟩)

end NNews
